import Mathlib

/-!
Verification development for the AI-Assistant repository
(client chat page `src/app/page.tsx` and completion proxy
`src/app/api/chat/route.ts`).

JavaScript strings are modelled as lists of characters (`Str`), so that
the client's chunk splitting, trimming and JSON parsing are executable
Lean functions amenable to both evaluation and induction.
-/

/-- JS strings, modelled as lists of characters. -/
abbrev Str := List Char

/-- Characters treated as whitespace by `String.prototype.trim`
(the subset relevant to this code base). -/
def isWsChar (c : Char) : Bool :=
  c = ' ' || c = '\n' || c = '\t' || c = '\r'

/-- Model of JS `s.trim()`: drop whitespace from both ends. -/
def jsTrim (s : Str) : Str :=
  ((s.dropWhile isWsChar).reverse.dropWhile isWsChar).reverse

/-- Model of JS `chunk.split("\n\n")`: split at each (leftmost-first)
occurrence of two consecutive newline characters. -/
def splitNN : Str → List Str
  | [] => [[]]
  | '\n' :: '\n' :: rest => [] :: splitNN rest
  | c :: rest =>
    match splitNN rest with
    | [] => [[c]]
    | l :: ls => (c :: l) :: ls

/-- Skip JSON whitespace. -/
def skipWs (s : Str) : Str := s.dropWhile isWsChar

/-- JSON string escapes accepted by the model parser. -/
def unescapeChar (c : Char) : Option Char :=
  if c = '"' then some '"'
  else if c = '\\' then some '\\'
  else if c = '/' then some '/'
  else if c = 'n' then some '\n'
  else if c = 't' then some '\t'
  else if c = 'r' then some '\r'
  else none

/-- Parse the body of a JSON string literal (the opening quote already
consumed): returns the decoded characters and the remaining input, or
`none` at end-of-input before the closing quote.  Each step consumes at
least one character, so any fuel of at least the input length is
enough. -/
def parseStringAux : Nat → Str → Str → Option (Str × Str)
  | 0, _, _ => none
  | fuel + 1, s, acc =>
    match s with
    | [] => none
    | c :: rest =>
      if c = '"' then some (acc, rest)
      else if c = '\\' then
        match rest with
        | [] => none
        | e :: rest' =>
          match unescapeChar e with
          | none => none
          | some u => parseStringAux fuel rest' (acc ++ [u])
      else parseStringAux fuel rest (acc ++ [c])

/-- Parse one `"key" : "value"` field of a flat JSON object. -/
def parseField (s : Str) : Option ((Str × Str) × Str) :=
  match skipWs s with
  | '"' :: rest =>
    match parseStringAux (rest.length + 1) rest [] with
    | none => none
    | some (key, rest1) =>
      match skipWs rest1 with
      | ':' :: rest2 =>
        match skipWs rest2 with
        | '"' :: rest3 =>
          match parseStringAux (rest3.length + 1) rest3 [] with
          | none => none
          | some (val, rest4) => some ((key, val), rest4)
        | _ => none
      | _ => none
  | _ => none

/-- Parse the fields of a flat JSON object after the opening brace,
up to and including the closing brace. -/
def parseFields : Nat → Str → List (Str × Str) → Option (List (Str × Str) × Str)
  | 0, _, _ => none
  | fuel + 1, s, acc =>
    match parseField s with
    | none => none
    | some (kv, rest) =>
      match skipWs rest with
      | '\x7d' :: rest' => some (acc ++ [kv], rest')
      | ',' :: rest' => parseFields fuel rest' (acc ++ [kv])
      | _ => none

/-- Model of `JSON.parse` on the frame grammar of this protocol: a flat
JSON object whose values are string literals, parsed to its field list.
Any other input (in particular any truncated frame) yields `none`,
matching the exception thrown by `JSON.parse`. -/
def jsonParse (s : Str) : Option (List (Str × Str)) :=
  match skipWs s with
  | '\x7b' :: rest =>
    match skipWs rest with
    | '\x7d' :: rest2 => if (skipWs rest2).isEmpty then some [] else none
    | _ =>
      match parseFields (s.length + 1) rest [] with
      | none => none
      | some (fields, rest2) => if (skipWs rest2).isEmpty then some fields else none
  | _ => none

/-- Property lookup on a parsed JSON object (`obj.key` in JS); with
duplicate keys the last occurrence wins, as in a JS object literal. -/
def jlookup (fields : List (Str × Str)) (k : Str) : Option Str :=
  (fields.reverse.find? (fun kv => kv.1 = k)).map (·.2)



/-- Model of `line.replace(/^data: /, "")`. -/
def stripDataMarker : Str → Str
  | 'd' :: 'a' :: 't' :: 'a' :: ':' :: ' ' :: rest => rest
  | l => l

/-- One iteration of the per-frame loop of `handleSendMessage`'s
streaming branch: strip the optional `data: ` marker, trim, skip when
empty, parse as JSON; on a `text` frame extend the accumulator (JS
`+=` turns a missing `value` into the text `undefined`) and report that
an update was emitted.  The `throw` on an `error` frame is caught by
the enclosing per-frame `catch` — the same one that swallows JSON parse
failures — so an error frame leaves the accumulator unchanged and does
not abort the loop. -/
def processLine (acc : Str) (line : Str) : Str × Bool :=
  let trimmedLine := jsTrim (stripDataMarker line)
  if trimmedLine.isEmpty then (acc, false)
  else
    match jsonParse trimmedLine with
    | none => (acc, false)
    | some fields =>
      if jlookup fields ("type").data = some ("text").data then
        (acc ++ (jlookup fields ("value").data).getD ("undefined").data, true)
      else (acc, false)

/-- Processing of one decoded chunk: split on the double-newline
delimiter, drop frames that trim to empty, then run the per-frame loop,
recording the accumulator value written to the UI after each text
frame. -/
def processChunk (acc : Str) (ups : List Str) (chunk : Str) : Str × List Str :=
  ((splitNN chunk).filter (fun l => !(jsTrim l).isEmpty)).foldl
    (fun p line =>
      let r := processLine p.1 line
      (r.1, if r.2 then p.2 ++ [r.1] else p.2))
    (acc, ups)

/-- The full streaming read loop over the list of decoded chunks
delivered by the reader (the `TextDecoder` is invoked with
`stream: true`, so a multi-byte character split across chunks is
carried over; chunks are therefore modelled at the text level).
Returns the final accumulator and the sequence of contents written to
the in-progress assistant message. -/
def streamIngest (chunks : List Str) : Str × List Str :=
  chunks.foldl (fun p chunk => processChunk p.1 p.2 chunk) ([], [])

/-! ## Client data model (`src/app/page.tsx`) -/

inductive Role
  | user
  | assistant
deriving DecidableEq, Repr

/-- The `Message` type of the chat page. -/
structure Message where
  role : Role
  content : Str
  id : Str
deriving DecidableEq, Repr

/-- The pieces of React state owned by `ChatPage` that the send
operation touches. -/
structure ChatState where
  messages : List Message
  input : Str
  isLoading : Bool
  error : Option Str
deriving DecidableEq, Repr

/-- A history entry as serialized on the wire: role and content only. -/
structure WireMessage where
  role : Role
  content : Str
deriving DecidableEq, Repr

/-- The body POSTed to `/api/chat`. -/
structure RequestEnvelope where
  messages : List WireMessage
  model : Str
deriving DecidableEq, Repr

/-- One state-updating call performed during `handleSendMessage`, in
program order. -/
inductive Event
  | append (m : Message)
  | updateById (i : Str) (c : Str)
  | updateLast (c : Str)
  | setLoading (b : Bool)
  | setErr (e : Option Str)
  | setInput (s : Str)
deriving DecidableEq, Repr

/-- The updater passed to `setMessages` on the structured-JSON and
streaming paths: locate the message with the given id
(`newMessages.find((msg) => msg.id === assistantMessageId)`, i.e. the
first match) and overwrite its content. -/
def setContentById (msgs : List Message) (i c : Str) : List Message :=
  match msgs with
  | [] => []
  | m :: rest =>
    if m.id = i then { m with content := c } :: rest
    else m :: setContentById rest i c

/-- The updater passed to `setMessages` on the failure path: overwrite
the content of the last message of the list when its role is
`assistant` (`newMessages[newMessages.length - 1]`); the id is not
consulted. -/
def setLastAssistantContent (msgs : List Message) (c : Str) : List Message :=
  match msgs.getLast? with
  | some m =>
    if m.role = .assistant then msgs.dropLast ++ [{ m with content := c }]
    else msgs
  | none => msgs

def applyEvent (st : ChatState) (e : Event) : ChatState :=
  match e with
  | .append m => { st with messages := st.messages ++ [m] }
  | .updateById i c => { st with messages := setContentById st.messages i c }
  | .updateLast c => { st with messages := setLastAssistantContent st.messages c }
  | .setLoading b => { st with isLoading := b }
  | .setErr e => { st with error := e }
  | .setInput s => { st with input := s }

def applyEvents (st : ChatState) (evs : List Event) : ChatState :=
  evs.foldl applyEvent st

/-! ## The send operation -/

/-- `FALLBACK_RESPONSES` from the chat page. -/
def FALLBACK_RESPONSES : List Str :=
  [("Извините, не удалось подключиться к сервису ИИ. Вот запасной ответ.").data,
   ("Сервис ИИ в настоящее время недоступен. Пожалуйста, попробуйте позже.").data,
   ("У меня проблемы с подключением к сервису ИИ, но я всё ещё здесь, чтобы помочь.").data,
   ("Похоже, возникла проблема с сервисом ИИ. Позвольте мне предоставить простой ответ.").data]

/-- `Math.floor(Math.random() * FALLBACK_RESPONSES.length)` with the
double produced by `Math.random` modelled as a rational. -/
def fallbackIndex (r : ℚ) : Nat := (⌊r * 4⌋).toNat

/-- `getFallbackResponse`: `FALLBACK_RESPONSES[fallbackIndex]`; `none`
models the JS value `undefined` of an out-of-bounds index access. -/
def getFallbackResponse (r : ℚ) : Option Str :=
  FALLBACK_RESPONSES.get? (fallbackIndex r)

/-- The timeout armed around the fetch: `setTimeout(..., 60000)`. -/
def TIMEOUT_MS : Nat := 60000

def timeoutMsg : Str :=
  ("Время ожидания истекло. Пожалуйста, попробуйте снова.").data

def noResponseMsg : Str := ("Не удалось получить ответ от модели.").data

def unexpectedFormatMsg : Str := ("Неожиданный формат ответа от сервера").data

/-- `Ошибка сервера: ${response.status}. ${errorText}` -/
def serverErrorMsg (status : Nat) (body : Str) : Str :=
  ("Ошибка сервера: ").data ++ (toString status).data ++ (". ").data ++ body

/-- The `data` object of a structured JSON response, reduced to the two
fields the client reads (a field is `none` when absent). -/
structure JsonData where
  error : Option Str
  content : Option Str
deriving DecidableEq, Repr

/-- JS truthiness of a string-valued field: absent (`undefined`) and
the empty string are falsy. -/
def isTruthyStr : Option Str → Bool
  | some s => !s.isEmpty
  | none => false

/-- `data.content || "Не удалось получить ответ от модели."` -/
def jsContentOrDefault : Option Str → Str
  | some v => if v.isEmpty then noResponseMsg else v
  | none => noResponseMsg

/-- The response delivered by the proxy, as the client discriminates
it: non-ok status, JSON body, event-stream body (as the list of
decoded chunks produced by the reader), or some other content type. -/
inductive ServerResponse
  | httpError (status : Nat) (bodyText : Str)
  | jsonBody (data : JsonData)
  | stream (chunks : List Str)
  | otherContentType
deriving DecidableEq, Repr

/-- Resolution of the awaited fetch as seen by the inner try block:
either some await rejected (an abort, a network failure, a body-read
failure or malformed top-level JSON, carrying the error's name and
message), or a response arrived. -/
inductive FetchOutcome
  | failed (name msg : Str)
  | ok (r : ServerResponse)
deriving DecidableEq, Repr

/-- The timeout race.  `clearTimeout(timeoutId)` runs immediately after
`await fetch(...)` resolves, i.e. once response headers have arrived,
so only the header-arrival time `headersMs` participates in the race;
`totalMs`, the time at which the full body (all streamed frames)
completes, does not influence the outcome.  When the timer fires first
the controller aborts the fetch, whose promise rejects with an
`AbortError`. -/
def raceOutcome (headersMs totalMs : Nat) (o : FetchOutcome) : FetchOutcome :=
  if TIMEOUT_MS < headersMs then .failed ("AbortError").data [] else o

/-- `messages.concat(userMessage).map(({ role, content }) => ({ role,
content }))` together with `model: "mistral"`. -/
def requestEnvelope (prior : List Message) (userMessage : Message) : RequestEnvelope :=
  ⟨(prior ++ [userMessage]).map (fun m => ⟨m.role, m.content⟩), ("mistral").data⟩

/-- The inner try block after the fetch resolved: the response
branching of `handleSendMessage`.  Returns the `setMessages` events it
performs and, when it throws, the thrown error's name and message. -/
def tryBody (aid : Str) (outcome : FetchOutcome) : List Event × Option (Str × Str) :=
  match outcome with
  | .failed name msg => ([], some (name, msg))
  | .ok r =>
    match r with
    | .httpError status body => ([], some (("Error").data, serverErrorMsg status body))
    | .jsonBody d =>
      if isTruthyStr d.error then ([], some (("Error").data, d.error.getD []))
      else ([.updateById aid (jsContentOrDefault d.content)], none)
    | .stream chunks =>
      ((streamIngest chunks).2.map (fun u => .updateById aid u), none)
    | .otherContentType => ([], some (("Error").data, unexpectedFormatMsg))

/-- The inner catch block: an `AbortError` is converted to the timeout
message, everything else is rethrown with its own message. -/
def innerResult (aid : Str) (outcome : FetchOutcome) : List Event × Option Str :=
  let p := tryBody aid outcome
  match p.2 with
  | none => (p.1, none)
  | some nm =>
    if nm.1 = ("AbortError").data then (p.1, some timeoutMsg) else (p.1, some nm.2)

/-- Everything the send performs, as data: the ordered list of
state-updating events, the resulting state, and the envelope POSTed to
the proxy (`none` when the send was a no-op). -/
structure SendResult where
  events : List Event
  final : ChatState
  request : Option RequestEnvelope
deriving DecidableEq, Repr

/-- `handleSendMessage`, as a function of the state at the time of the
submit, the two generated ids, the timing of the response (headers /
full body), the fetch outcome, and the `Math.random` draw used by
`getFallbackResponse`. -/
def handleSendMessage (st : ChatState) (uid aid : Str) (headersMs totalMs : Nat)
    (outcome : FetchOutcome) (r : ℚ) : SendResult :=
  if (jsTrim st.input).isEmpty || st.isLoading then ⟨[], st, none⟩
  else
    let userMessage : Message := ⟨.user, st.input, uid⟩
    let pre : List Event :=
      [.append userMessage, .setInput [], .setLoading true, .setErr none,
       .append ⟨.assistant, [], aid⟩]
    let body := innerResult aid (raceOutcome headersMs totalMs outcome)
    let catchEvs : List Event :=
      match body.2 with
      | none => []
      | some msg => [.setErr (some msg), .updateLast ((getFallbackResponse r).getD [])]
    let evs := pre ++ body.1 ++ catchEvs ++ [.setLoading false]
    ⟨evs, applyEvents st evs, some (requestEnvelope st.messages userMessage)⟩

/-- The successive contents written to the in-progress assistant
message (the one with id `aid`) over a list of events. -/
def placeholderContents (evs : List Event) (aid : Str) : List Str :=
  evs.filterMap (fun e =>
    match e with
    | .updateById i c => if i = aid then some c else none
    | _ => none)

/-- Recognize the `setIsLoading(false)` call. -/
def isSetLoadingFalse : Event → Bool
  | .setLoading false => true
  | _ => false

/-- How many times `setIsLoading(false)` was called. -/
def countLoadingFalse (evs : List Event) : Nat :=
  (evs.filter isSetLoadingFalse).length

/-! ## Completion proxy (`src/app/api/chat/route.ts`) -/

/-- `MODEL_MAP`. -/
def MODEL_MAP : List (Str × Str) :=
  [(("mistral").data, ("mistralai/mistral-7b-instruct").data),
   (("base-free").data, ("01-ai/yi-34b-chat").data)]

/-- `FALLBACK_MODELS` (defined by the route but never consulted). -/
def FALLBACK_MODELS : List (Str × List Str) :=
  [(("mistral").data, [("openai/gpt-3.5-turbo").data, ("anthropic/claude-instant-v1").data]),
   (("base-free").data, [("google/gemma-7b-it").data, ("anthropic/claude-instant-v1").data])]

/-- The own entries of a static string map.  This is only the
own-property part of `MODEL_MAP[model]`; the full plain-object access,
prototype chain included, is `jsObjAccess` below. -/
def mapLookup (l : List (Str × Str)) (k : Str) : Option Str :=
  (l.find? (fun kv => kv.1 = k)).map (·.2)

/-- The value produced by the property access `MODEL_MAP[model]`:
either the upstream identifier string of an own entry, or a value
inherited from `Object.prototype` (a function, or the prototype object
for `__proto__`) — truthy but not a model identifier. -/
inductive ModelIdVal
  | ownId (mid : Str)
  | protoVal
deriving DecidableEq, Repr

/-- The property names a plain object literal inherits from
`Object.prototype`. -/
def OBJECT_PROTOTYPE_KEYS : List Str :=
  [("constructor").data, ("hasOwnProperty").data, ("isPrototypeOf").data,
   ("propertyIsEnumerable").data, ("toLocaleString").data, ("toString").data,
   ("valueOf").data, ("__defineGetter__").data, ("__defineSetter__").data,
   ("__lookupGetter__").data, ("__lookupSetter__").data, ("__proto__").data]

/-- The plain-object property access `MODEL_MAP[model]` (the
`as keyof` cast is erased at runtime): an own entry yields its string
value; a name inherited from `Object.prototype` yields the inherited
(truthy, non-string) value; anything else is `undefined`. -/
def jsObjAccess (own : List (Str × Str)) (k : Str) : Option ModelIdVal :=
  match (own.find? (fun kv => kv.1 = k)).map (·.2) with
  | some mid => some (.ownId mid)
  | none => if k ∈ OBJECT_PROTOTYPE_KEYS then some .protoVal else none

/-- JS truthiness of the accessed `modelId` (`!modelId`): `undefined`
and the empty string are falsy; an inherited prototype member is
truthy. -/
def modelIdTruthy : Option ModelIdVal → Bool
  | none => false
  | some (.ownId mid) => !mid.isEmpty
  | some .protoVal => true

/-- The `messages` field of the request body: absent, present but not
an array (with its JS truthiness), or an array of entries. -/
inductive MessagesField
  | absent
  | notArray (truthy : Bool)
  | array (msgs : List WireMessage)
deriving DecidableEq, Repr

/-- The parsed request body, reduced to the fields the route reads. -/
structure ProxyRequest where
  messages : MessagesField
  model : Option Str
deriving DecidableEq, Repr

/-- `!messages || !Array.isArray(messages)` fails exactly when the
field is not an array (an array is always truthy). -/
def messagesFieldOk : MessagesField → Bool
  | .array _ => true
  | _ => false

/-- `!model` fails for an absent field and for the empty string. -/
def modelOk : Option Str → Bool
  | some s => !s.isEmpty
  | none => false

/-- `choices[0].message`, reduced to the one field the route reads. -/
structure UpstreamMessage where
  content : Option Str
deriving DecidableEq, Repr

/-- An element of `choices`; `message` may be absent. -/
structure UpstreamChoice where
  message : Option UpstreamMessage
deriving DecidableEq, Repr

/-- The JSON body of the upstream response: `choices` may be absent,
and an element of the array may itself be null. -/
structure UpstreamBody where
  choices : Option (List (Option UpstreamChoice))
deriving DecidableEq, Repr

/-- `data.choices && data.choices[0] && data.choices[0].message`: when
the chain holds, the `content` the route extracts
(`data.choices[0].message.content`, possibly absent). -/
def wellFormedChoice (b : UpstreamBody) : Option (Option Str) :=
  match b.choices with
  | some (some c :: _) =>
    match c.message with
    | some m => some m.content
    | none => none
  | _ => none

/-- Resolution of the upstream non-streaming call: transport exception,
or a response with its `ok` flag and JSON body (`none` models a body
on which `response.json()` throws). -/
inductive UpstreamOutcome
  | transportError
  | response (ok : Bool) (body : Option UpstreamBody)
deriving DecidableEq, Repr

/-- All the upstream failure cases absorbed by the route: transport
exception, non-2xx status, malformed body, or a 2xx body lacking a
well-formed completion choice. -/
def upstreamFailed : UpstreamOutcome → Bool
  | .transportError => true
  | .response ok body =>
    !ok ||
      (match body with
       | none => true
       | some d => (wellFormedChoice d).isNone)

/-- What the route replies: HTTP status and the `error` / `content`
fields of the JSON body (absent fields as `none`). -/
structure ProxyResponse where
  status : Nat
  error : Option Str
  content : Option Str
deriving DecidableEq, Repr

def apiKeyMissingMsg : Str := ("API ключ OpenRouter не настроен").data

def invalidFormatMsg : Str := ("Неверный формат запроса").data

def invalidModelMsg : Str := ("Указана неверная модель").data

/-- The canned degraded-service `content` returned when the upstream
call fails. -/
def cannedUnavailableMsg : Str :=
  ("Извините, в данный момент я не могу подключиться к API. Пожалуйста, проверьте ваш API ключ и попробуйте позже.").data

def unexpectedProxyErrorMsg : Str := ("Произошла непредвиденная ошибка").data

def processingErrorContent : Str := ("Произошла ошибка при обработке запроса.").data

/-- The `POST` handler of `/api/chat`, as a function of the configured
`process.env.API_KEY` (`none` when unset), the parsed request body
(`none` models a body on which `req.json()` throws, landing in the
top-level catch), and the upstream call's resolution. -/
def POST (apiKeyEnv : Option Str) (body : Option ProxyRequest)
    (upstream : UpstreamOutcome) : ProxyResponse :=
  let apiKey := apiKeyEnv.getD []
  if apiKey.isEmpty || (jsTrim apiKey).isEmpty then
    ⟨500, some apiKeyMissingMsg, none⟩
  else
    match body with
    | none => ⟨200, some unexpectedProxyErrorMsg, some processingErrorContent⟩
    | some b =>
      if !(messagesFieldOk b.messages) || !(modelOk b.model) then
        ⟨400, some invalidFormatMsg, none⟩
      else
        if !(modelIdTruthy (jsObjAccess MODEL_MAP (b.model.getD []))) then
          ⟨400, some invalidModelMsg, none⟩
        else
          match upstream with
          | .transportError => ⟨200, none, some cannedUnavailableMsg⟩
          | .response ok bodyData =>
            if ok then
              match bodyData with
              | some d =>
                match wellFormedChoice d with
                | some content => ⟨200, none, content⟩
                | none => ⟨200, none, some cannedUnavailableMsg⟩
              | none => ⟨200, none, some cannedUnavailableMsg⟩
            else ⟨200, none, some cannedUnavailableMsg⟩

/-! ## Encoded well-formed text frames

A well-formed `text` frame with plain value `v` (no quote, backslash or
newline characters), in the shape used by the event-stream protocol:
`data: ` marker, JSON object, double-newline delimiter. -/

def frameSuf : Str := ['"', '\x7d']

def fieldsChars : Str :=
  ['"','t','y','p','e','"',':','"','t','e','x','t','"',',','"','v','a','l','u','e','"',':','"']

def framePost (v : Str) : Str := fieldsChars ++ v ++ frameSuf

def textFrameJson (v : Str) : Str := '\x7b' :: framePost v

def dataMarker : Str := ['d','a','t','a',':',' ']

def textFrame (v : Str) : Str := dataMarker ++ textFrameJson v

def valueChars : Str := ['"','v','a','l','u','e','"',':','"']

def valuePart (v : Str) : Str := valueChars ++ v ++ frameSuf

def goodVal (v : Str) : Prop := ∀ c ∈ v, c ≠ '"' ∧ c ≠ '\\' ∧ c ≠ '\n'

instance (v : Str) : Decidable (goodVal v) := by
  unfold goodVal
  infer_instance

def encodeChunk (g : List Str) : Str := (g.map (fun v => textFrame v ++ ['\n', '\n'])).flatten

/-! ## Theorems -/

theorem splitNN_ne_nil : ∀ s : Str, splitNN s ≠ [] := by
  intro s
  induction s with
  | nil => simp [splitNN]
  | cons c rest ih =>
    match c, rest with
    | '\n', '\n' :: r => simp [splitNN]
    | c, rest =>
      rw [splitNN.eq_def]
      split
      · simp
      · simp
      · split <;> simp

example : splitNN ("ab\n\ncd").data = [['a','b'], ['c','d']] := by decide
example : splitNN ("a\n\n\nb").data = [['a'], ['\n','b']] := by decide
example : ("ab" : String).data = ['a', 'b'] := by decide

example :
    jsonParse ("\x7b\"type\":\"text\",\"value\":\"He\"\x7d").data =
      some [(("type").data, ("text").data), (("value").data, ("He").data)] := by
  decide

example : jsonParse ("\x7b\"type\":\"te").data = none := by decide

example : jsonParse ("xt\",\"value\":\"He\"\x7d").data = none := by decide

example :
    streamIngest [("data: \x7b\"type\":\"text\",\"value\":\"He\"\x7d\n\n").data,
                  ("data: \x7b\"type\":\"text\",\"value\":\"llo\"\x7d\n\n").data] =
      (("Hello").data, [("He").data, ("Hello").data]) := by decide



theorem parseStringAux_clean (v : Str) :
    ∀ (fuel : Nat) (rest acc : Str), v.length < fuel → goodVal v →
      parseStringAux fuel (v ++ '"' :: rest) acc = some (acc ++ v, rest) := by
  induction v with
  | nil =>
    intro fuel rest acc hf _
    match fuel, hf with
    | fuel + 1, _ => simp [parseStringAux]
  | cons c v' ih =>
    intro fuel rest acc hf hg
    have hc := hg c (by simp)
    match fuel, hf with
    | fuel + 1, hf =>
      have hfl : v'.length < fuel := by simpa using Nat.lt_of_succ_lt_succ hf
      simp only [List.cons_append, parseStringAux, hc.1, hc.2.1, if_false]
      rw [ih fuel rest (acc ++ [c]) hfl (fun x hx => hg x (by simp [hx]))]
      simp

theorem parseField_type (v : Str) :
    parseField (framePost v) =
      some (((("type").data, ("text").data)), ',' :: valuePart v) := rfl

theorem parseField_value (v : Str) (h : goodVal v) :
    parseField (valuePart v) = some ((("value").data, v), ['\x7d']) := by
  have h1 : parseStringAux ((v ++ frameSuf).length + 1) (v ++ frameSuf) [] =
      some (v, ['\x7d']) := by
    have h2 := parseStringAux_clean v ((v ++ frameSuf).length + 1) ['\x7d'] []
      (by simp [frameSuf]; omega) h
    simpa [frameSuf] using h2
  calc parseField (valuePart v)
      = (match parseStringAux ((v ++ frameSuf).length + 1) (v ++ frameSuf) [] with
         | none => none
         | some (val, rest) => some ((("value").data, val), rest)) := rfl
    _ = some ((("value").data, v), ['\x7d']) := by rw [h1]

theorem skipWs_cons_nonws (c : Char) (t : Str) (hc : isWsChar c = false) :
    skipWs (c :: t) = c :: t := by
  simp [skipWs, List.dropWhile_cons, hc]

theorem parseFields_two (v : Str) (h : goodVal v) (k : Nat) :
    parseFields (k + 2) (framePost v) [] =
      some ([(("type").data, ("text").data), (("value").data, v)], []) := by
  have e1 : parseFields (k + 2) (framePost v) [] =
      parseFields (k + 1) (valuePart v) [(("type").data, ("text").data)] := rfl
  rw [e1]
  have e2 : parseFields (k + 1) (valuePart v) [(("type").data, ("text").data)] =
      (match parseField (valuePart v) with
       | none => none
       | some (kv, rest) =>
         match skipWs rest with
         | '\x7d' :: rest' => some ([(("type").data, ("text").data)] ++ [kv], rest')
         | ',' :: rest' => parseFields k rest' ([(("type").data, ("text").data)] ++ [kv])
         | _ => none) := rfl
  rw [e2, parseField_value v h]
  rfl

theorem jsonParse_textFrameJson (v : Str) (h : goodVal v) :
    jsonParse (textFrameJson v) =
      some [(("type").data, ("text").data), (("value").data, v)] := by
  have hfuel : (textFrameJson v).length + 1 = (v.length + 25) + 2 := by
    simp [textFrameJson, framePost, fieldsChars, frameSuf]
  have e1 : jsonParse (textFrameJson v) =
      (match parseFields ((textFrameJson v).length + 1) (framePost v) [] with
       | none => none
       | some (fields, rest2) => if (skipWs rest2).isEmpty then some fields else none) := rfl
  rw [e1, hfuel, parseFields_two v h]
  rfl

theorem jsTrim_of_ends (c d : Char) (l : Str) (hc : isWsChar c = false)
    (hd : isWsChar d = false) :
    jsTrim (c :: (l ++ [d])) = c :: (l ++ [d]) := by
  simp [jsTrim, List.dropWhile_cons, hc, hd, List.reverse_append]

theorem textFrameJson_shape (v : Str) :
    textFrameJson v = '\x7b' :: ((fieldsChars ++ v ++ ['"']) ++ ['\x7d']) := by
  simp [textFrameJson, framePost, frameSuf]

theorem jsTrim_textFrameJson (v : Str) : jsTrim (textFrameJson v) = textFrameJson v := by
  rw [textFrameJson_shape]
  exact jsTrim_of_ends _ _ _ rfl rfl

theorem textFrame_shape (v : Str) :
    textFrame v =
      'd' :: ((['a','t','a',':',' ','\x7b'] ++ fieldsChars ++ v ++ ['"']) ++ ['\x7d']) := by
  simp [textFrame, textFrameJson, framePost, dataMarker, frameSuf]

theorem jsTrim_textFrame (v : Str) : jsTrim (textFrame v) = textFrame v := by
  rw [textFrame_shape]
  exact jsTrim_of_ends _ _ _ rfl rfl

theorem processLine_textFrame (acc v : Str) (h : goodVal v) :
    processLine acc (textFrame v) = (acc ++ v, true) := by
  calc processLine acc (textFrame v)
      = (if (jsTrim (textFrameJson v)).isEmpty then (acc, false) else
         match jsonParse (jsTrim (textFrameJson v)) with
         | none => (acc, false)
         | some fields =>
           if jlookup fields ("type").data = some ("text").data then
             (acc ++ (jlookup fields ("value").data).getD ("undefined").data, true)
           else (acc, false)) := rfl
    _ = (acc ++ v, true) := by
        rw [jsTrim_textFrameJson, jsonParse_textFrameJson v h]
        rfl

theorem newline_not_mem_textFrame (v : Str) (h : goodVal v) : '\n' ∉ textFrame v := by
  intro hm
  rw [textFrame_shape] at hm
  simp only [List.mem_cons, List.mem_append] at hm
  rcases hm with h1 | h1
  · exact absurd h1 (by decide)
  rcases h1 with (((h1 | h1) | h1) | h1) | h1
  · exact absurd h1 (by decide)
  · exact absurd h1 (by decide)
  · exact (h '\n' h1).2.2 rfl
  · exact absurd h1 (by decide)
  · exact absurd h1 (by decide)

theorem splitNN_cons_ne (c : Char) (t : Str) (hc : c ≠ '\n') :
    splitNN (c :: t) =
      match splitNN t with
      | [] => [[c]]
      | l :: ls => (c :: l) :: ls := by
  rw [splitNN.eq_def]
  split <;> simp_all

theorem splitNN_append_frame (l rest : Str) (hl : '\n' ∉ l) :
    splitNN (l ++ '\n' :: '\n' :: rest) = l :: splitNN rest := by
  induction l with
  | nil => simp [splitNN]
  | cons c l' ih =>
    have hc : c ≠ '\n' := fun h => hl (h ▸ List.mem_cons_self c l')
    rw [List.cons_append, splitNN_cons_ne c _ hc,
      ih (fun h => hl (List.mem_cons_of_mem c h))]

theorem scanl_head_tail (f : Str → Str → Str) (b : Str) (l : List Str) :
    List.scanl f b l = b :: (List.scanl f b l).tail := by
  cases l <;> simp [List.scanl_nil, List.scanl_cons]

theorem processChunk_encodeChunk (g : List Str) :
    ∀ (acc : Str) (ups : List Str), (∀ v ∈ g, goodVal v) →
      processChunk acc ups (encodeChunk g) =
        (acc ++ g.flatten, ups ++ (List.scanl (· ++ ·) acc g).tail) := by
  induction g with
  | nil =>
    intro acc ups _
    simp [processChunk, encodeChunk, splitNN, jsTrim, List.scanl_nil]
  | cons v g' ih =>
    intro acc ups hg
    have hv : goodVal v := hg v (by simp)
    have echunk : encodeChunk (v :: g') = textFrame v ++ '\n' :: '\n' :: encodeChunk g' := by
      simp [encodeChunk]
    have e : processChunk acc ups (encodeChunk (v :: g')) =
        processChunk (acc ++ v) (ups ++ [acc ++ v]) (encodeChunk g') := by
      unfold processChunk
      rw [echunk, splitNN_append_frame _ _ (newline_not_mem_textFrame v hv),
        List.filter_cons]
      rw [show (!(jsTrim (textFrame v)).isEmpty) = true by
        rw [jsTrim_textFrame, textFrame_shape]; rfl]
      simp only [if_true, List.foldl_cons]
      rw [processLine_textFrame acc v hv]
      simp
    rw [e, ih (acc ++ v) (ups ++ [acc ++ v]) (fun x hx => hg x (by simp [hx]))]
    rw [List.scanl_cons]
    rw [scanl_head_tail (· ++ ·) (acc ++ v) g']
    simp

theorem scanl_append_tail (l1 l2 : List Str) (acc : Str) :
    (List.scanl (· ++ ·) acc (l1 ++ l2)).tail =
      (List.scanl (· ++ ·) acc l1).tail ++
        (List.scanl (· ++ ·) (acc ++ l1.flatten) l2).tail := by
  induction l1 generalizing acc with
  | nil => simp [List.scanl_nil]
  | cons v l1' ih =>
    rw [List.cons_append, List.scanl_cons, List.scanl_cons]
    simp only [List.cons_append, List.nil_append, List.tail_cons]
    rw [scanl_head_tail (· ++ ·) (acc ++ v) (l1' ++ l2),
      scanl_head_tail (· ++ ·) (acc ++ v) l1']
    simp only [List.tail_cons, List.cons_append]
    rw [ih (acc ++ v)]
    simp [List.append_assoc]

/-- `streamIngest` with explicit starting state, for induction. -/

theorem streamIngest_from (groups : List (List Str)) :
    ∀ (acc : Str) (ups : List Str), (∀ v ∈ groups.flatten, goodVal v) →
      List.foldl (fun p chunk => processChunk p.1 p.2 chunk) (acc, ups)
          (groups.map encodeChunk) =
        (acc ++ groups.flatten.flatten,
         ups ++ (List.scanl (· ++ ·) acc groups.flatten).tail) := by
  induction groups with
  | nil => intro acc ups _; simp
  | cons g gs ih =>
    intro acc ups hg
    simp only [List.map_cons, List.foldl_cons]
    rw [processChunk_encodeChunk g acc ups (fun v hv => hg v (by simp [hv]))]
    rw [ih (acc ++ g.flatten) (ups ++ (List.scanl (· ++ ·) acc g).tail)
      (fun v hv => hg v (by simp [hv]))]
    simp only [List.flatten_cons]
    rw [scanl_append_tail g gs.flatten acc]
    simp [List.append_assoc]

theorem streamIngest_encode (groups : List (List Str))
    (h : ∀ v ∈ groups.flatten, goodVal v) :
    streamIngest (groups.map encodeChunk) =
      (groups.flatten.flatten,
       (List.scanl (· ++ ·) ([] : Str) groups.flatten).tail) := by
  have := streamIngest_from groups [] [] h
  simpa [streamIngest] using this

/-! ## Helper lemmas -/

theorem getFallbackResponse_valid (r : ℚ) (h0 : 0 ≤ r) (h1 : r < 1) :
    ∃ s, getFallbackResponse r = some s ∧ s ∈ FALLBACK_RESPONSES ∧ s ≠ [] := by
  have hlt : (⌊r * 4⌋ : ℤ) < 4 := by
    have h4 : r * 4 < 4 := by linarith
    exact Int.floor_lt.mpr (by exact_mod_cast h4)
  have hge : (0 : ℤ) ≤ ⌊r * 4⌋ := Int.floor_nonneg.mpr (by positivity)
  have hidx : fallbackIndex r < 4 := by
    unfold fallbackIndex
    omega
  unfold getFallbackResponse
  interval_cases h : fallbackIndex r <;> exact ⟨_, rfl, by decide, by decide⟩

theorem setContentById_map_id (msgs : List Message) (i c : Str) :
    (setContentById msgs i c).map Message.id = msgs.map Message.id := by
  induction msgs with
  | nil => rfl
  | cons m rest ih =>
    unfold setContentById
    by_cases h : m.id = i <;> simp [h, ih]

theorem setContentById_get?_ne (msgs : List Message) (i c : Str) :
    ∀ n m, msgs.get? n = some m → m.id ≠ i →
      (setContentById msgs i c).get? n = some m := by
  induction msgs with
  | nil => intro n m h; simp at h
  | cons m0 rest ih =>
    intro n m h hne
    unfold setContentById
    by_cases h0 : m0.id = i
    · cases n with
      | zero =>
        simp at h
        subst h
        exact absurd h0 hne
      | succ k =>
        simp_all
    · cases n with
      | zero => simp_all
      | succ k =>
        simp only [h0, if_neg, List.get?_cons_succ] at h ⊢
        exact ih k m h hne

theorem setLastAssistantContent_nil (c : Str) :
    setLastAssistantContent [] c = [] := rfl

theorem setLastAssistantContent_cons_cons (a b : Message) (rest : List Message) (c : Str) :
    setLastAssistantContent (a :: b :: rest) c =
      a :: setLastAssistantContent (b :: rest) c := by
  unfold setLastAssistantContent
  rw [List.getLast?_cons_cons]
  cases h : (b :: rest).getLast? with
  | none => simp at h
  | some m =>
    by_cases hr : m.role = .assistant <;> simp [hr]

theorem setLastAssistantContent_single (m : Message) (c : Str) :
    setLastAssistantContent [m] c =
      if m.role = .assistant then [{ m with content := c }] else [m] := by
  unfold setLastAssistantContent
  simp

theorem setLastAssistantContent_map_id (msgs : List Message) (c : Str) :
    (setLastAssistantContent msgs c).map Message.id = msgs.map Message.id := by
  induction msgs with
  | nil => rfl
  | cons a rest ih =>
    cases rest with
    | nil =>
      rw [setLastAssistantContent_single]
      by_cases hr : a.role = .assistant <;> simp [hr]
    | cons b rest' =>
      rw [setLastAssistantContent_cons_cons]
      simp [ih]

theorem setLastAssistantContent_get?_lt (msgs : List Message) (c : Str) :
    ∀ n, n + 1 < msgs.length →
      (setLastAssistantContent msgs c).get? n = msgs.get? n := by
  induction msgs with
  | nil => intro n h; simp at h
  | cons a rest ih =>
    intro n h
    cases rest with
    | nil => simp at h
    | cons b rest' =>
      rw [setLastAssistantContent_cons_cons]
      cases n with
      | zero => simp
      | succ k =>
        simp only [List.get?_cons_succ]
        exact ih k (by simpa using Nat.lt_of_succ_lt_succ h)

theorem foldl_append_flatten : ∀ (vs : List Str) (a : Str),
    List.foldl (· ++ ·) a vs = a ++ vs.flatten := by
  intro vs
  induction vs with
  | nil => intro a; simp
  | cons v vs' ih => intro a; simp [List.foldl_cons, ih (a ++ v)]

theorem getLastD_scanl_tail : ∀ (vs : List Str) (a : Str),
    ((List.scanl (· ++ ·) a vs).tail).getLastD a = List.foldl (· ++ ·) a vs := by
  intro vs
  induction vs with
  | nil => intro a; simp [List.scanl_nil]
  | cons v vs' ih =>
    intro a
    rw [List.scanl_cons]
    simp only [List.nil_append, List.cons_append, List.tail_cons]
    rw [scanl_head_tail (· ++ ·) (a ++ v) vs', List.getLastD_cons, List.foldl_cons]
    exact ih (a ++ v)

theorem setContentById_append_last (pre : List Message) (m : Message) (c : Str)
    (h : ∀ p ∈ pre, p.id ≠ m.id) :
    setContentById (pre ++ [m]) m.id c = pre ++ [{ m with content := c }] := by
  induction pre with
  | nil => simp [setContentById]
  | cons p pre' ih =>
    have hp : p.id ≠ m.id := h p (by simp)
    show setContentById (p :: (pre' ++ [m])) m.id c = p :: (pre' ++ [{ m with content := c }])
    unfold setContentById
    rw [if_neg hp, ih (fun q hq => h q (by simp [hq]))]

theorem foldl_setContentById_last (ups : List Str) : ∀ (pre : List Message) (m : Message),
    (∀ p ∈ pre, p.id ≠ m.id) →
      List.foldl (fun msgs u => setContentById msgs m.id u) (pre ++ [m]) ups =
        pre ++ [{ m with content := ups.getLastD m.content }] := by
  induction ups with
  | nil => intro pre m _; simp
  | cons u ups' ih =>
    intro pre m h
    rw [List.foldl_cons, setContentById_append_last pre m u h]
    have e := ih pre { m with content := u } h
    simp only at e
    rw [e]
    rw [List.getLastD_cons]

theorem applyEvents_updateById (ups : List Str) : ∀ (st : ChatState) (aid : Str),
    applyEvents st (ups.map (fun u => Event.updateById aid u)) =
      { st with messages := List.foldl (fun msgs u => setContentById msgs aid u) st.messages ups } := by
  induction ups with
  | nil => intro st aid; simp [applyEvents]
  | cons u ups' ih =>
    intro st aid
    simp only [List.map_cons]
    show applyEvents (applyEvent st (Event.updateById aid u)) (ups'.map _) = _
    rw [ih]
    simp [applyEvent]

theorem applyEvents_append (st : ChatState) (l1 l2 : List Event) :
    applyEvents st (l1 ++ l2) = applyEvents (applyEvents st l1) l2 := by
  simp [applyEvents, List.foldl_append]

theorem fallbackIndex_lt (r : ℚ) (h0 : 0 ≤ r) (h1 : r < 1) : fallbackIndex r < 4 := by
  have hlt : (⌊r * 4⌋ : ℤ) < 4 := by
    have h4 : r * 4 < 4 := by linarith
    exact Int.floor_lt.mpr (by exact_mod_cast h4)
  have hge : (0 : ℤ) ≤ ⌊r * 4⌋ := Int.floor_nonneg.mpr (by positivity)
  unfold fallbackIndex
  omega

/-! ## Claims -/

/-- C9 (confirmed): for every `Math.random` draw `r ∈ [0, 1)`, the
pseudo-random index lies within the bounds of `FALLBACK_RESPONSES`, so
`getFallbackResponse` returns a defined (`some`), non-empty string that
is an element of the fixed four-element fallback set; the failure path
can therefore never write `undefined` or an empty string into the
assistant message. -/
theorem C9_fallback_in_bounds (r : ℚ) (h0 : 0 ≤ r) (h1 : r < 1) :
    fallbackIndex r < FALLBACK_RESPONSES.length ∧
      ∃ s, getFallbackResponse r = some s ∧ s ∈ FALLBACK_RESPONSES ∧ s ≠ [] := by
  constructor
  · have := fallbackIndex_lt r h0 h1
    simpa [FALLBACK_RESPONSES] using this
  · exact getFallbackResponse_valid r h0 h1

theorem C9_fallback_in_bounds_witness :
    (0 : ℚ) ≤ 1/2 ∧ (1/2 : ℚ) < 1 ∧
      (fallbackIndex (1/2) < FALLBACK_RESPONSES.length ∧
        ∃ s, getFallbackResponse (1/2) = some s ∧ s ∈ FALLBACK_RESPONSES ∧ s ≠ []) :=
  ⟨by norm_num, by norm_num,
   C9_fallback_in_bounds (1/2) (by norm_num) (by norm_num)⟩

/-- C3 counterexample: the failure-path overwrite
(`newMessages[newMessages.length - 1]`, lines 198–205) does not locate
the in-progress message by its id: in a list whose placeholder (id
`a`) is followed by another assistant message (id `b`), it rewrites
the message with id `b` and leaves the one with id `a` untouched, so
not every mutation of an appended message uses the id as its
correlation key. -/
theorem C3_fallback_overwrite_counterexample :
    setLastAssistantContent
        [⟨.assistant, [], ("a").data⟩, ⟨.assistant, ("x").data, ("b").data⟩]
        (("f").data) =
      [⟨.assistant, [], ("a").data⟩, ⟨.assistant, ("f").data, ("b").data⟩] ∧
      (("b").data : Str) ≠ ("a").data := by
  decide

/-- C3 (amended): the incremental stream updates and the final
structured-content write locate the target message by its id and leave
every message with a different id unchanged; the failure-path fallback
overwrite instead targets the final position of the list (when that
message is an assistant message), leaving every non-final message
unchanged, without consulting the id. -/
theorem C3_locate_amended (msgs : List Message) (i c : Str) :
    ((setContentById msgs i c).map Message.id = msgs.map Message.id ∧
      ∀ n m, msgs.get? n = some m → m.id ≠ i →
        (setContentById msgs i c).get? n = some m) ∧
    ((setLastAssistantContent msgs c).map Message.id = msgs.map Message.id ∧
      ∀ n, n + 1 < msgs.length →
        (setLastAssistantContent msgs c).get? n = msgs.get? n) :=
  ⟨⟨setContentById_map_id msgs i c, setContentById_get?_ne msgs i c⟩,
   ⟨setLastAssistantContent_map_id msgs c, setLastAssistantContent_get?_lt msgs c⟩⟩

theorem C3_locate_amended_witness :
    (setContentById
        [⟨.assistant, [], ("a").data⟩, ⟨.assistant, ("x").data, ("b").data⟩]
        (("a").data) (("f").data)).get? 1 =
      some ⟨.assistant, ("x").data, ("b").data⟩ ∧
    (setLastAssistantContent
        [⟨.assistant, [], ("a").data⟩, ⟨.assistant, ("x").data, ("b").data⟩]
        (("f").data)).get? 0 =
      [(⟨.assistant, [], ("a").data⟩ : Message), ⟨.assistant, ("x").data, ("b").data⟩].get? 0 :=
  ⟨(C3_locate_amended _ (("a").data) (("f").data)).1.2 1 _ (by decide) (by decide),
   (C3_locate_amended _ (("a").data) (("f").data)).2.2 0 (by decide)⟩

/-- C6 (confirmed): for every request that passes validation and the
credential check, every failure of the upstream call — transport
exception, non-2xx status, a malformed (unparseable) 2xx body, or a
2xx body lacking a well-formed completion choice — makes the proxy
reply with HTTP status 200 and the non-empty canned degraded-service
message as `content`; upstream failure is never signalled via a
non-2xx status. -/
theorem C6_proxy_degraded_200 (apiKeyEnv : Option Str) (b : ProxyRequest)
    (u : UpstreamOutcome)
    (hkey : (jsTrim (apiKeyEnv.getD [])).isEmpty = false)
    (hmsgs : messagesFieldOk b.messages = true)
    (hmodel : modelOk b.model = true)
    (hmap : (mapLookup MODEL_MAP (b.model.getD [])).isSome = true)
    (hfail : upstreamFailed u = true) :
    POST apiKeyEnv (some b) u = ⟨200, none, some cannedUnavailableMsg⟩ ∧
      cannedUnavailableMsg ≠ [] := by
  refine ⟨?_, by decide⟩
  have hk2 : (apiKeyEnv.getD []).isEmpty = false := by
    cases h : (apiKeyEnv.getD []) with
    | nil => rw [h] at hkey; simp [jsTrim] at hkey
    | cons c t => simp
  obtain ⟨mid, hmid⟩ := Option.isSome_iff_exists.mp hmap
  have hacc : jsObjAccess MODEL_MAP (b.model.getD []) = some (.ownId mid) := by
    unfold mapLookup at hmid
    unfold jsObjAccess
    rw [hmid]
  have hmidne : mid ≠ [] := by
    unfold mapLookup at hmid
    obtain ⟨kv, hkv, hkv2⟩ := Option.map_eq_some'.mp hmid
    have hmem := List.mem_of_find?_eq_some hkv
    have hall : ∀ p ∈ MODEL_MAP, p.2 ≠ ([] : Str) := by decide
    rw [← hkv2]
    exact hall kv hmem
  have htr : modelIdTruthy (jsObjAccess MODEL_MAP (b.model.getD [])) = true := by
    rw [hacc]
    cases mid with
    | nil => exact absurd rfl hmidne
    | cons c t => rfl
  unfold POST
  simp only [hk2, hkey, hmsgs, hmodel, htr, Bool.or_self, Bool.not_true,
    Bool.or_false, Bool.false_or, if_false, Bool.false_eq_true]
  cases u with
  | transportError => rfl
  | response ok bodyData =>
    cases ok with
    | false => rfl
    | true =>
      cases bodyData with
      | none => rfl
      | some d =>
        have : (wellFormedChoice d).isNone = true := by
          simpa [upstreamFailed] using hfail
        have hwf : wellFormedChoice d = none := Option.isNone_iff_eq_none.mp this
        simp [hwf]

theorem C6_proxy_degraded_200_witness :
    (jsTrim ((some (("k").data) : Option Str).getD [])).isEmpty = false ∧
    (POST (some (("k").data)) (some ⟨.array [], some (("mistral").data)⟩) .transportError =
        ⟨200, none, some cannedUnavailableMsg⟩ ∧
      cannedUnavailableMsg ≠ []) :=
  ⟨by decide,
   C6_proxy_degraded_200 (some (("k").data)) ⟨.array [], some (("mistral").data)⟩
     .transportError (by decide) (by decide) (by decide) (by decide) (by decide)⟩

/-- C7 counterexample: two refutations of the claim as stated.
(1) A request whose body is missing `messages`, made while the API key
is unset, is answered with HTTP 500 — not the HTTP 400 the claim
demands for every missing-`messages` request: the route checks the
credential before validating the body.  (2) A request with a valid key
and a `messages` array whose `model` is `toString` — not a known
logical name — is answered with status 200, not 400: the plain-object
access `MODEL_MAP["toString"]` finds the inherited
`Object.prototype.toString`, which is truthy, so the `!modelId`
rejection never fires and the route proceeds to the upstream call. -/
theorem C7_claim_counterexample :
    ((POST none (some ⟨.absent, some (("mistral").data)⟩) .transportError).status = 500 ∧
      (POST none (some ⟨.absent, some (("mistral").data)⟩) .transportError).status ≠ 400) ∧
    (mapLookup MODEL_MAP (("toString").data) = none ∧
      (POST (some (("k").data)) (some ⟨.array [], some (("toString").data)⟩)
          .transportError).status = 200 ∧
      (POST (some (("k").data)) (some ⟨.array [], some (("toString").data)⟩)
          .transportError).status ≠ 400) := by
  decide

/-- C7 (amended): when the configured API key is present and
non-blank: a request whose `messages` is missing or not a sequence, or
whose `model` is missing or empty, receives HTTP 400 with an error;
likewise a request whose `model` resolves to no truthy value under the
plain-object access — neither an own `MODEL_MAP` entry nor a property
inherited from `Object.prototype` — receives HTTP 400 with an error;
but a `model` naming an inherited `Object.prototype` member (such as
`toString`) bypasses the unknown-model rejection and the request is
answered with status 200 after the upstream attempt.  And every
request made while the key is absent or blank receives HTTP 500,
independently of the upstream outcome (the upstream call is never
attempted). -/
theorem C7_validation_amended (apiKeyEnv : Option Str) (body : Option ProxyRequest)
    (b : ProxyRequest) (u u' : UpstreamOutcome) :
    ((jsTrim (apiKeyEnv.getD [])).isEmpty = false →
      (messagesFieldOk b.messages = false ∨ modelOk b.model = false ∨
        modelIdTruthy (jsObjAccess MODEL_MAP (b.model.getD [])) = false) →
      ((POST apiKeyEnv (some b) u).status = 400 ∧
        (POST apiKeyEnv (some b) u).error.isSome = true)) ∧
    ((jsTrim (apiKeyEnv.getD [])).isEmpty = false →
      messagesFieldOk b.messages = true → modelOk b.model = true →
      jsObjAccess MODEL_MAP (b.model.getD []) = some .protoVal →
      (POST apiKeyEnv (some b) u).status = 200) ∧
    ((jsTrim (apiKeyEnv.getD [])).isEmpty = true →
      POST apiKeyEnv body u = ⟨500, some apiKeyMissingMsg, none⟩ ∧
        POST apiKeyEnv body u = POST apiKeyEnv body u') := by
  refine ⟨?_, ?_, ?_⟩
  · intro hkey hbad
    have hk2 : (apiKeyEnv.getD []).isEmpty = false := by
      cases h : (apiKeyEnv.getD []) with
      | nil => rw [h] at hkey; simp [jsTrim] at hkey
      | cons c t => simp
    unfold POST
    simp only [hk2, hkey, Bool.or_self, if_false, Bool.false_eq_true]
    rcases hbad with h | h | h
    · simp [h]
    · simp [h]
    · by_cases hmf : messagesFieldOk b.messages = true
      · by_cases hmo : modelOk b.model = true
        · simp [hmf, hmo, h]
        · have hmo' : modelOk b.model = false := by
            revert hmo; cases modelOk b.model <;> simp
          simp [hmo']
      · have hmf' : messagesFieldOk b.messages = false := by
          revert hmf; cases messagesFieldOk b.messages <;> simp
        simp [hmf']
  · intro hkey hmf hmo hproto
    have hk2 : (apiKeyEnv.getD []).isEmpty = false := by
      cases h : (apiKeyEnv.getD []) with
      | nil => rw [h] at hkey; simp [jsTrim] at hkey
      | cons c t => simp
    have htr : modelIdTruthy (jsObjAccess MODEL_MAP (b.model.getD [])) = true := by
      rw [hproto]; rfl
    unfold POST
    simp only [hk2, hkey, hmf, hmo, htr, Bool.or_self, Bool.not_true,
      Bool.or_false, Bool.false_or, if_false, Bool.false_eq_true]
    cases u with
    | transportError => rfl
    | response ok bodyData =>
      cases ok with
      | false => rfl
      | true =>
        cases bodyData with
        | none => rfl
        | some d => cases h : wellFormedChoice d <;> simp [h]
  · intro hkey
    refine ⟨?_, ?_⟩ <;> · unfold POST; simp [hkey]

theorem C7_validation_amended_witness :
    ((jsTrim ((some (("k").data) : Option Str).getD [])).isEmpty = false ∧
      messagesFieldOk (ProxyRequest.mk .absent (some (("mistral").data))).messages = false ∧
      ((POST (some (("k").data)) (some ⟨.absent, some (("mistral").data)⟩) .transportError).status = 400 ∧
        (POST (some (("k").data)) (some ⟨.absent, some (("mistral").data)⟩) .transportError).error.isSome = true)) ∧
    (jsObjAccess MODEL_MAP (("toString").data) = some .protoVal ∧
      (POST (some (("k").data)) (some ⟨.array [], some (("toString").data)⟩)
          .transportError).status = 200) ∧
    ((jsTrim ((none : Option Str).getD [])).isEmpty = true ∧
      (POST none (some ⟨.array [], some (("mistral").data)⟩) .transportError =
          ⟨500, some apiKeyMissingMsg, none⟩ ∧
        POST none (some ⟨.array [], some (("mistral").data)⟩) .transportError =
          POST none (some ⟨.array [], some (("mistral").data)⟩) (.response true none))) :=
  ⟨⟨by decide, by decide,
    (C7_validation_amended (some (("k").data)) (some ⟨.absent, some (("mistral").data)⟩)
        ⟨.absent, some (("mistral").data)⟩ .transportError .transportError).1
      (by decide) (Or.inl (by decide))⟩,
   ⟨by decide,
    (C7_validation_amended (some (("k").data)) (some ⟨.array [], some (("toString").data)⟩)
        ⟨.array [], some (("toString").data)⟩ .transportError .transportError).2.1
      (by decide) (by decide) (by decide) (by decide)⟩,
   ⟨by decide,
    (C7_validation_amended none (some ⟨.array [], some (("mistral").data)⟩)
        ⟨.array [], some (("mistral").data)⟩ .transportError (.response true none)).2.2
      (by decide)⟩⟩

/-- C8 (confirmed): for every send of non-empty trimmed input while
idle, the envelope POSTed to the proxy is exactly the prior message
history followed by the new user message, each reduced to role and
content (ids stripped), together with the logical model name
`mistral`; the freshly appended assistant placeholder is not part of
the envelope. -/
theorem C8_request_envelope (st : ChatState) (uid aid : Str) (hm tm : Nat)
    (outcome : FetchOutcome) (r : ℚ)
    (h1 : (jsTrim st.input).isEmpty = false) (h2 : st.isLoading = false) :
    (handleSendMessage st uid aid hm tm outcome r).request =
      some ⟨st.messages.map (fun m => ⟨m.role, m.content⟩) ++ [⟨.user, st.input⟩],
            ("mistral").data⟩ := by
  unfold handleSendMessage
  rw [h1, h2]
  simp [requestEnvelope]

theorem C8_request_envelope_witness :
    (jsTrim (("Hi").data)).isEmpty = false ∧
    (handleSendMessage
        ⟨[⟨.user, ("q").data, ("u0").data⟩, ⟨.assistant, ("a").data, ("a0").data⟩],
         ("Hi").data, false, none⟩
        (("u1").data) (("a1").data) 0 0 (.ok .otherContentType) 0).request =
      some ⟨[⟨.user, ("q").data⟩, ⟨.assistant, ("a").data⟩, ⟨.user, ("Hi").data⟩],
            ("mistral").data⟩ :=
  ⟨by decide,
   C8_request_envelope
     ⟨[⟨.user, ("q").data, ("u0").data⟩, ⟨.assistant, ("a").data, ("a0").data⟩],
      ("Hi").data, false, none⟩
     (("u1").data) (("a1").data) 0 0 (.ok .otherContentType) 0 (by decide) rfl⟩

/-- C10 (confirmed): for every accepted send, the appended user
message carries the raw input text exactly as typed (the first
UI event is the append of `⟨user, input, uid⟩`, untrimmed) and the
transmitted envelope ends with the same raw content; trimming is used
only for the no-op decision: a send with whitespace-only input or
while loading performs no event, sends no request and leaves the
state unchanged. -/
theorem C10_raw_input_preserved (st : ChatState) (uid aid : Str) (hm tm : Nat)
    (outcome : FetchOutcome) (r : ℚ) :
    ((jsTrim st.input).isEmpty = false → st.isLoading = false →
      ((handleSendMessage st uid aid hm tm outcome r).events.head? =
          some (.append ⟨.user, st.input, uid⟩) ∧
        ((handleSendMessage st uid aid hm tm outcome r).request.map
          (fun env => env.messages.getLast?)) = some (some ⟨.user, st.input⟩))) ∧
    ((jsTrim st.input).isEmpty = true ∨ st.isLoading = true →
      handleSendMessage st uid aid hm tm outcome r = ⟨[], st, none⟩) := by
  constructor
  · intro h1 h2
    unfold handleSendMessage
    rw [h1, h2]
    refine ⟨by simp, ?_⟩
    simp [requestEnvelope]
  · intro h
    unfold handleSendMessage
    rcases h with h | h <;> simp [h]

theorem C10_raw_input_preserved_witness :
    (jsTrim ((" hi ").data)).isEmpty = false ∧
    ((handleSendMessage ⟨[], (" hi ").data, false, none⟩ (("u1").data) (("a1").data)
        0 0 (.ok .otherContentType) 0).events.head? =
      some (.append ⟨.user, (" hi ").data, ("u1").data⟩) ∧
    ((handleSendMessage ⟨[], (" hi ").data, false, none⟩ (("u1").data) (("a1").data)
        0 0 (.ok .otherContentType) 0).request.map
      (fun env => env.messages.getLast?)) = some (some ⟨.user, (" hi ").data⟩)) ∧
    ((jsTrim (("   ").data)).isEmpty = true ∧
      handleSendMessage ⟨[], ("   ").data, false, none⟩ (("u1").data) (("a1").data)
          0 0 (.ok .otherContentType) 0 =
        ⟨[], ⟨[], ("   ").data, false, none⟩, none⟩) :=
  ⟨by decide,
   (C10_raw_input_preserved ⟨[], (" hi ").data, false, none⟩ (("u1").data) (("a1").data)
      0 0 (.ok .otherContentType) 0).1 (by decide) rfl,
   ⟨by decide,
    (C10_raw_input_preserved ⟨[], ("   ").data, false, none⟩ (("u1").data) (("a1").data)
        0 0 (.ok .otherContentType) 0).2 (Or.inl (by decide))⟩⟩

theorem setContentById_fresh (pre : List Message) (u ph : Message) (c : Str)
    (h5 : ∀ p ∈ pre, p.id ≠ ph.id) (h6 : u.id ≠ ph.id) :
    setContentById (pre ++ [u, ph]) ph.id c = pre ++ [u, { ph with content := c }] := by
  have e : pre ++ [u, ph] = (pre ++ [u]) ++ [ph] := by simp
  rw [e, setContentById_append_last (pre ++ [u]) ph c ?hall]
  · simp
  case hall =>
    intro p hp
    rcases List.mem_append.mp hp with h | h
    · exact h5 p h
    · simp only [List.mem_singleton] at h
      subst h
      exact h6

theorem foldl_setContentById_fresh (ups : List Str) (pre : List Message) (u ph : Message)
    (h5 : ∀ p ∈ pre, p.id ≠ ph.id) (h6 : u.id ≠ ph.id) :
    List.foldl (fun msgs x => setContentById msgs ph.id x) (pre ++ [u, ph]) ups =
      pre ++ [u, { ph with content := ups.getLastD ph.content }] := by
  have e : pre ++ [u, ph] = (pre ++ [u]) ++ [ph] := by simp
  rw [e, foldl_setContentById_last ups (pre ++ [u]) ph ?hall]
  · simp
  case hall =>
    intro p hp
    rcases List.mem_append.mp hp with h | h
    · exact h5 p h
    · simp only [List.mem_singleton] at h
      subst h
      exact h6

/-- C5 counterexample: a structured JSON response whose `content`
field is present but is the empty string (`{content: ""}`) does not
leave the assistant content equal to that value: `data.content || ...`
treats the empty string as falsy, so the "no response" placeholder
text is written instead, contradicting "equals the value of the
content field whenever that field is present". -/
theorem C5_empty_content_counterexample :
    (handleSendMessage ⟨[], ("Hi").data, false, none⟩ (("u1").data) (("a1").data)
        0 0 (.ok (.jsonBody ⟨none, some []⟩)) 0).final.messages =
      [⟨.user, ("Hi").data, ("u1").data⟩, ⟨.assistant, noResponseMsg, ("a1").data⟩] ∧
      noResponseMsg ≠ [] := by
  decide

/-- C5 (amended): for every structured JSON response without an error
field, arriving within the deadline, the in-progress assistant
message's content is written exactly once (one atomic update) and the
final content equals the `content` field whenever that field is present
and non-empty, and equals the "no response" placeholder text when the
field is absent or empty (the JS `||` default fires on both). -/
theorem C5_structured_content_amended (st : ChatState) (uid aid : Str) (hm tm : Nat)
    (d : JsonData) (r : ℚ)
    (h1 : (jsTrim st.input).isEmpty = false) (h2 : st.isLoading = false)
    (h3 : ¬ TIMEOUT_MS < hm) (h4 : d.error = none)
    (h5 : ∀ p ∈ st.messages, p.id ≠ aid) (h6 : uid ≠ aid) :
    placeholderContents
        (handleSendMessage st uid aid hm tm (.ok (.jsonBody d)) r).events aid =
      [jsContentOrDefault d.content] ∧
    (handleSendMessage st uid aid hm tm (.ok (.jsonBody d)) r).final.messages =
      st.messages ++
        [⟨.user, st.input, uid⟩, ⟨.assistant, jsContentOrDefault d.content, aid⟩] := by
  unfold handleSendMessage
  rw [h1, h2]
  simp only [Bool.or_self, Bool.false_eq_true, if_false]
  rw [show raceOutcome hm tm (.ok (.jsonBody d)) = .ok (.jsonBody d) from by
    unfold raceOutcome; rw [if_neg h3]]
  simp only [innerResult, tryBody, h4, isTruthyStr]
  constructor
  · simp [placeholderContents]
  · simp only [applyEvents, List.foldl_append, List.foldl_cons, List.foldl_nil, applyEvent]
    have e := setContentById_fresh st.messages ⟨.user, st.input, uid⟩
      ⟨.assistant, [], aid⟩ (jsContentOrDefault d.content) h5 h6
    simp only at e
    simp only [List.append_assoc, List.cons_append, List.nil_append] at e ⊢
    simp [applyEvent, e]

theorem C5_structured_content_amended_witness :
    ((jsTrim (("Hi").data)).isEmpty = false ∧ ¬ TIMEOUT_MS < 0) ∧
    (placeholderContents
        (handleSendMessage ⟨[], ("Hi").data, false, none⟩ (("u1").data) (("a1").data)
          0 0 (.ok (.jsonBody ⟨none, some (("X").data)⟩)) 0).events (("a1").data) =
      [jsContentOrDefault (some (("X").data))] ∧
    (handleSendMessage ⟨[], ("Hi").data, false, none⟩ (("u1").data) (("a1").data)
        0 0 (.ok (.jsonBody ⟨none, some (("X").data)⟩)) 0).final.messages =
      [] ++ [⟨.user, ("Hi").data, ("u1").data⟩,
             ⟨.assistant, jsContentOrDefault (some (("X").data)), ("a1").data⟩]) :=
  ⟨⟨by decide, by decide⟩,
   C5_structured_content_amended ⟨[], ("Hi").data, false, none⟩ (("u1").data) (("a1").data)
     0 0 ⟨none, some (("X").data)⟩ 0 (by decide) rfl (by decide) rfl
     (by simp) (by decide)⟩

/-- C4 counterexample: a response whose headers arrive after one
second but whose body (a streamed frame) completes only after 10^7 ms
— far past the 60-second deadline — is not cancelled and does not fail
with the timeout message: `clearTimeout` runs as soon as `await fetch`
resolves (headers received), so the deadline does not cover reading
the body. The send completes normally. -/
theorem C4_body_timeout_counterexample :
    TIMEOUT_MS < 10000000 ∧
    (handleSendMessage ⟨[], ("Hi").data, false, none⟩ (("u1").data) (("a1").data)
        1000 10000000
        (.ok (.stream [("data: \x7b\"type\":\"text\",\"value\":\"Hello\"\x7d\n\n").data]))
        0).final.error = none ∧
    (handleSendMessage ⟨[], ("Hi").data, false, none⟩ (("u1").data) (("a1").data)
        1000 10000000
        (.ok (.stream [("data: \x7b\"type\":\"text\",\"value\":\"Hello\"\x7d\n\n").data]))
        0).final.messages =
      [⟨.user, ("Hi").data, ("u1").data⟩, ⟨.assistant, ("Hello").data, ("a1").data⟩] := by
  decide

/-- C4 (amended): for every send whose response *headers* have not
arrived within the 60-second deadline, the in-flight request is
cancelled (the armed controller aborts the fetch) and the send fails
with the distinct timeout message, after which `isLoading` becomes
false exactly once.  Once headers arrive the timer is cleared, so the
body is not subject to the deadline. -/
theorem C4_header_timeout_amended (st : ChatState) (uid aid : Str) (hm tm : Nat)
    (outcome : FetchOutcome) (r : ℚ)
    (h1 : (jsTrim st.input).isEmpty = false) (h2 : st.isLoading = false)
    (h3 : TIMEOUT_MS < hm) :
    (handleSendMessage st uid aid hm tm outcome r).final.error = some timeoutMsg ∧
    (handleSendMessage st uid aid hm tm outcome r).final.isLoading = false ∧
    countLoadingFalse (handleSendMessage st uid aid hm tm outcome r).events = 1 := by
  unfold handleSendMessage
  rw [h1, h2]
  simp only [Bool.or_self, Bool.false_eq_true, if_false]
  rw [show raceOutcome hm tm outcome = .failed ("AbortError").data [] from by
    unfold raceOutcome; rw [if_pos h3]]
  simp only [innerResult, tryBody, if_pos]
  refine ⟨?_, ?_, ?_⟩
  · simp [applyEvents, applyEvent]
  · simp [applyEvents, applyEvent]
  · simp [countLoadingFalse, isSetLoadingFalse, List.filter]

theorem C4_header_timeout_amended_witness :
    ((jsTrim (("Hi").data)).isEmpty = false ∧ TIMEOUT_MS < 60001) ∧
    ((handleSendMessage ⟨[], ("Hi").data, false, none⟩ (("u1").data) (("a1").data)
        60001 60001 (.ok (.jsonBody ⟨none, some (("X").data)⟩)) 0).final.error =
      some timeoutMsg ∧
    (handleSendMessage ⟨[], ("Hi").data, false, none⟩ (("u1").data) (("a1").data)
        60001 60001 (.ok (.jsonBody ⟨none, some (("X").data)⟩)) 0).final.isLoading = false ∧
    countLoadingFalse
        (handleSendMessage ⟨[], ("Hi").data, false, none⟩ (("u1").data) (("a1").data)
          60001 60001 (.ok (.jsonBody ⟨none, some (("X").data)⟩)) 0).events = 1) :=
  ⟨⟨by decide, by decide⟩,
   C4_header_timeout_amended ⟨[], ("Hi").data, false, none⟩ (("u1").data) (("a1").data)
     60001 60001 (.ok (.jsonBody ⟨none, some (("X").data)⟩)) 0
     (by decide) rfl (by decide)⟩

/-- C1 (code bug): a streamed `{type: "error", value: "boom"}` frame
does not fail the send.  The `throw new Error(parsedChunk.value)` for
an error frame sits inside the same per-frame try/catch that is meant
to skip unparseable frames, so the thrown error is immediately caught
and only logged: the stream is read further, `lastError` stays unset,
and the assistant content keeps the accumulated text instead of being
replaced by a fallback string.  Here the frames `He`, `error boom`,
`llo` end with content `Hello`, no error, and no fallback string. -/
theorem C1_stream_error_frame_swallowed :
    (handleSendMessage ⟨[], ("Hi").data, false, none⟩ (("u1").data) (("a1").data) 0 0
        (.ok (.stream
          [("data: \x7b\"type\":\"text\",\"value\":\"He\"\x7d\n\n").data,
           ("data: \x7b\"type\":\"error\",\"value\":\"boom\"\x7d\n\n").data,
           ("data: \x7b\"type\":\"text\",\"value\":\"llo\"\x7d\n\n").data]))
        0).final.error = none ∧
    (handleSendMessage ⟨[], ("Hi").data, false, none⟩ (("u1").data) (("a1").data) 0 0
        (.ok (.stream
          [("data: \x7b\"type\":\"text\",\"value\":\"He\"\x7d\n\n").data,
           ("data: \x7b\"type\":\"error\",\"value\":\"boom\"\x7d\n\n").data,
           ("data: \x7b\"type\":\"text\",\"value\":\"llo\"\x7d\n\n").data]))
        0).final.messages =
      [⟨.user, ("Hi").data, ("u1").data⟩, ⟨.assistant, ("Hello").data, ("a1").data⟩] ∧
    ¬ (("Hello").data ∈ FALLBACK_RESPONSES) := by
  decide

theorem placeholderContents_updateById (aid : Str) (ups : List Str) :
    placeholderContents (ups.map (fun u => Event.updateById aid u)) aid = ups := by
  induction ups with
  | nil => rfl
  | cons u t ih =>
    have e : placeholderContents ((u :: t).map (fun x => Event.updateById aid x)) aid =
        u :: placeholderContents (t.map (fun x => Event.updateById aid x)) aid := by
      simp [placeholderContents]
    rw [e, ih]

theorem placeholderContents_append (aid : Str) (l1 l2 : List Event) :
    placeholderContents (l1 ++ l2) aid =
      placeholderContents l1 aid ++ placeholderContents l2 aid := by
  simp [placeholderContents, List.filterMap_append]

/-- C2 counterexample: the body `data: {"type":"text","value":"He"}`
followed by the blank-line delimiter — a stream consisting of exactly
one well-formed text frame — delivered as two read chunks that split
the frame in the middle, is not reassembled: each chunk is split on
`\n\n` separately, both pieces fail `JSON.parse` and are skipped, so
no update is emitted and the final assistant content is empty rather
than `He`. -/
theorem C2_split_frame_counterexample :
    ("data: \x7b\"type\":\"te").data ++ ("xt\",\"value\":\"He\"\x7d\n\n").data =
      ("data: \x7b\"type\":\"text\",\"value\":\"He\"\x7d\n\n").data ∧
    placeholderContents
        (handleSendMessage ⟨[], ("Hi").data, false, none⟩ (("u1").data) (("a1").data) 0 0
          (.ok (.stream [("data: \x7b\"type\":\"te").data,
                         ("xt\",\"value\":\"He\"\x7d\n\n").data])) 0).events
        (("a1").data) = [] ∧
    (handleSendMessage ⟨[], ("Hi").data, false, none⟩ (("u1").data) (("a1").data) 0 0
        (.ok (.stream [("data: \x7b\"type\":\"te").data,
                       ("xt\",\"value\":\"He\"\x7d\n\n").data])) 0).final.messages =
      [⟨.user, ("Hi").data, ("u1").data⟩, ⟨.assistant, [], ("a1").data⟩] ∧
    ([] : Str) ≠ ("He").data := by
  decide

/-- C2 (amended): for every streamed response consisting only of
well-formed text frames with plain values (no quote, backslash or
newline characters) separated by the double-newline delimiter, and
for every partition of the body into read chunks whose boundaries
fall on frame boundaries, the ingestion splits each chunk into frames
on the double-newline delimiter, discards empty frames, and the
in-progress assistant message's content passes through exactly the
sequence of prefixes of the concatenated frame values (starting from
the empty placeholder) and ends equal to the concatenation of all
text-frame values.  For partitions that split a frame the claim fails
(the split pieces are dropped), see the counterexample. -/
theorem C2_aligned_stream_amended (st : ChatState) (uid aid : Str) (hm tm : Nat)
    (groups : List (List Str)) (r : ℚ)
    (h1 : (jsTrim st.input).isEmpty = false) (h2 : st.isLoading = false)
    (h3 : ¬ TIMEOUT_MS < hm)
    (h5 : ∀ p ∈ st.messages, p.id ≠ aid) (h6 : uid ≠ aid)
    (hg : ∀ v ∈ groups.flatten, goodVal v) :
    [] :: placeholderContents
        (handleSendMessage st uid aid hm tm
          (.ok (.stream (groups.map encodeChunk))) r).events aid =
      List.scanl (· ++ ·) [] groups.flatten ∧
    (handleSendMessage st uid aid hm tm
        (.ok (.stream (groups.map encodeChunk))) r).final.messages =
      st.messages ++
        [⟨.user, st.input, uid⟩, ⟨.assistant, groups.flatten.flatten, aid⟩] := by
  unfold handleSendMessage
  rw [h1, h2]
  simp only [Bool.or_self, Bool.false_eq_true, if_false]
  rw [show raceOutcome hm tm (.ok (.stream (groups.map encodeChunk))) =
      .ok (.stream (groups.map encodeChunk)) from by
    unfold raceOutcome; rw [if_neg h3]]
  simp only [innerResult, tryBody]
  have hsn : (streamIngest (groups.map encodeChunk)).2 =
      (List.scanl (· ++ ·) [] groups.flatten).tail := by
    rw [streamIngest_encode groups hg]
  rw [hsn]
  constructor
  · rw [placeholderContents_append, placeholderContents_append, placeholderContents_append]
    rw [placeholderContents_updateById]
    rw [show placeholderContents
        [Event.append ⟨.user, st.input, uid⟩, Event.setInput [], Event.setLoading true,
         Event.setErr none, Event.append ⟨.assistant, [], aid⟩] aid = [] from rfl]
    rw [show placeholderContents [Event.setLoading false] aid = [] from rfl]
    rw [show placeholderContents ([] : List Event) aid = [] from rfl]
    simp only [List.nil_append, List.append_nil]
    exact (scanl_head_tail (· ++ ·) [] groups.flatten).symm
  · rw [applyEvents_append, applyEvents_append, applyEvents_append]
    rw [show applyEvents st
        [Event.append ⟨.user, st.input, uid⟩, Event.setInput [], Event.setLoading true,
         Event.setErr none, Event.append ⟨.assistant, [], aid⟩] =
        ⟨st.messages ++ [⟨.user, st.input, uid⟩, ⟨.assistant, [], aid⟩], [], true, none⟩ from by
      simp [applyEvents, applyEvent]]
    rw [applyEvents_updateById]
    simp only
    have e := foldl_setContentById_fresh ((List.scanl (· ++ ·) [] groups.flatten).tail)
      st.messages ⟨.user, st.input, uid⟩ ⟨.assistant, [], aid⟩ h5 h6
    simp only at e
    rw [e]
    rw [show ((List.scanl (· ++ ·) [] groups.flatten).tail).getLastD [] =
        List.foldl (· ++ ·) [] groups.flatten from getLastD_scanl_tail groups.flatten []]
    rw [foldl_append_flatten groups.flatten []]
    simp [applyEvents, applyEvent]

theorem C2_aligned_stream_amended_witness :
    (∀ v ∈ ([[("He").data], [("llo").data]] : List (List Str)).flatten, goodVal v) ∧
    ([] :: placeholderContents
        (handleSendMessage ⟨[], ("Hi").data, false, none⟩ (("u1").data) (("a1").data) 0 0
          (.ok (.stream
            (([[("He").data], [("llo").data]] : List (List Str)).map encodeChunk))) 0).events
        (("a1").data) =
      List.scanl (· ++ ·) []
        ([[("He").data], [("llo").data]] : List (List Str)).flatten ∧
    (handleSendMessage ⟨[], ("Hi").data, false, none⟩ (("u1").data) (("a1").data) 0 0
        (.ok (.stream
          (([[("He").data], [("llo").data]] : List (List Str)).map encodeChunk))) 0).final.messages =
      [] ++ [⟨.user, ("Hi").data, ("u1").data⟩,
             ⟨.assistant,
              ([[("He").data], [("llo").data]] : List (List Str)).flatten.flatten,
              ("a1").data⟩]) :=
  ⟨by decide,
   C2_aligned_stream_amended ⟨[], ("Hi").data, false, none⟩ (("u1").data) (("a1").data)
     0 0 [[("He").data], [("llo").data]] 0
     (by decide) rfl (by decide) (by simp) (by decide) (by decide)⟩
